import Mathlib

/-!
Shallow embedding of the Atlasjs tile/viewport coordinate engine.

JavaScript numbers are modelled as rationals (ℚ) where the code paths under
study stay finite; the paths whose behaviour depends on IEEE infinities and
NaN (the LatLng validity check, the infinite-tile-range guard of
GridLayer._update) use an explicit JsNum type with nan / posInf / negInf.
JS `Math.floor` / `Math.ceil` are Int.floor / Int.ceil, `Math.round` is
floor (x + 1/2), the JS `%` remainder (sign of the dividend) is `jsMod`
built on truncating division, and `Math.floor(x / 2)` on integer tile
indices is `Int.fdiv`.
-/

namespace Atlas

/-! ### Numeric primitives (src/unnamed/part_003 and JS Math semantics) -/

/-- Truncation toward zero, the rounding used by the JS `%` operator. -/
def jsTrunc (q : ℚ) : ℤ := if 0 ≤ q then ⌊q⌋ else ⌈q⌉

/-- The JS remainder `a % b` (sign follows the dividend). -/
def jsMod (a b : ℚ) : ℚ := a - b * (jsTrunc (a / b) : ℚ)

/-- JS `Math.round`: half-up rounding, `Math.round x = Math.floor (x + 0.5)`. -/
def jsRound (q : ℚ) : ℤ := ⌊q + 1 / 2⌋

/-- `wrapNum(x, [rmin, rmax], includeMax)` from src/unnamed/part_003:
`x === max && includeMax ? x : ((x - min) % d + d) % d + min` with
`d = max - min`. -/
def wrapNum (x rmin rmax : ℚ) (includeMax : Bool) : ℚ :=
  let d := rmax - rmin
  if x = rmax ∧ includeMax = true then x
  else jsMod (jsMod (x - rmin) d + d) d + rmin

/-! ### Points and bounds over ℚ (src/GoogleJsStyle/Geometric-Primitives.js) -/

/-- `Point {x, y}` for code paths with finite coordinates. -/
structure Pt where
  x : ℚ
  y : ℚ
deriving DecidableEq

/-- `Point.unscaleBy`: componentwise division. -/
def Pt.unscaleBy (p s : Pt) : Pt := ⟨p.x / s.x, p.y / s.y⟩

/-- `Point.floor`: componentwise `Math.floor`. -/
def Pt.floorPt (p : Pt) : Pt := ⟨(⌊p.x⌋ : ℤ), (⌊p.y⌋ : ℤ)⟩

/-- `Point.ceil`: componentwise `Math.ceil`. -/
def Pt.ceilPt (p : Pt) : Pt := ⟨(⌈p.x⌉ : ℤ), (⌈p.y⌉ : ℤ)⟩

/-- `Point.subtract`. -/
def Pt.sub (p q : Pt) : Pt := ⟨p.x - q.x, p.y - q.y⟩

/-- `Bounds {min, max}`. -/
structure B where
  min : Pt
  max : Pt
deriving DecidableEq

/-- `new Bounds(a, b)`: the constructor extends an empty bounds with each
corner, so min/max are the componentwise min/max of the two points. -/
def mkBounds (a b : Pt) : B :=
  ⟨⟨min a.x b.x, min a.y b.y⟩, ⟨max a.x b.x, max a.y b.y⟩⟩

/-- `GridLayer._pxBoundsToTileRange` (src/unnamed/part_002):
`new Bounds(bounds.min.unscaleBy(tileSize).floor(),
bounds.max.unscaleBy(tileSize).ceil().subtract([1, 1]))`. -/
def pxBoundsToTileRange (bounds : B) (tileSize : Pt) : B :=
  mkBounds ((bounds.min.unscaleBy tileSize).floorPt)
    (((bounds.max.unscaleBy tileSize).ceilPt).sub ⟨1, 1⟩)

/-! ### Map._limitZoom (src/GoogleJsStyle/Map-core.js) -/

/-- `Map._limitZoom`: `if (snap) zoom = Math.round(zoom / snap) * snap;
return Math.max(min, Math.min(max, zoom))`.  `snap` is
`Browser.any3d ? options.zoomSnap : 1`, passed here as a parameter;
JS truthiness of a number is `≠ 0`. -/
def limitZoom (minZ maxZ snap zoom : ℚ) : ℚ :=
  let z := if snap ≠ 0 then (jsRound (zoom / snap) : ℚ) * snap else zoom
  max minZ (min maxZ z)

/-- The zoom limiting as the spec sentence describes it (clamp to
[minZoom, maxZoom] first, then snap the clamped value): stated from the
spec's words, for comparison with `limitZoom` translated from the source. -/
def limitZoomClaimOrder (minZ maxZ snap zoom : ℚ) : ℚ :=
  let c := max minZ (min maxZ zoom)
  if snap ≠ 0 then (jsRound (c / snap) : ℚ) * snap else c

/-! ### SphericalMercator.project (src/GoogleJsStyle/Projection-and-crs.js) -/

/-- Earth radius used by SphericalMercator. -/
def earthRadius : ℚ := 6378137

/-- `SphericalMercator.MAX_LATITUDE`. -/
def MAX_LATITUDE : ℚ := 85.0511287798

/-- `SphericalMercator.project`.  `Math.PI`, `Math.sin` and `Math.log` are
host math-library collaborators, passed in as parameters `pi`, `sinf`,
`logf`; the latitude clamp `Math.max(Math.min(max, latlng.lat), -max)` and
the structure of both coordinates are translated exactly. -/
def mercatorProject (pi : ℚ) (sinf logf : ℚ → ℚ) (lat lng : ℚ) : Pt :=
  let d := pi / 180
  let latC := max (min MAX_LATITUDE lat) (-MAX_LATITUDE)
  let s := sinf (latC * d)
  ⟨earthRadius * lng * d, earthRadius * logf ((1 + s) / (1 - s)) / 2⟩

/-! ### Theorems for C3, C5, C7 -/

/-- C3 counterexample: on the degenerate pixel bounds ((0,0),(0,0)) with
tile size (1,1), the corner `ceil(max) - 1 = (-1,-1)` lies below the corner
`floor(min) = (0,0)`, and the `Bounds` constructor normalises them by
componentwise min/max, so the returned minimum corner is (-1,-1), not the
claimed `(floor(min.x/tx), floor(min.y/ty)) = (0,0)`. -/
theorem pxBoundsToTileRange_claim_false :
    (pxBoundsToTileRange ⟨⟨0, 0⟩, ⟨0, 0⟩⟩ ⟨1, 1⟩).min ≠
      ⟨(⌊(0 : ℚ) / 1⌋ : ℤ), (⌊(0 : ℚ) / 1⌋ : ℤ)⟩ := by
  simp only [pxBoundsToTileRange, mkBounds, Pt.unscaleBy, Pt.floorPt, Pt.ceilPt,
    Pt.sub, ne_eq, Pt.mk.injEq, not_and]
  norm_num

/-- C3 (amended): whenever the floor corner is componentwise ≤ the
ceil-minus-one corner (in particular for any pixel bounds spanning at
least one tile per axis), `_pxBoundsToTileRange` returns exactly the range
from `floor(min / tileSize)` to `ceil(max / tileSize) - 1`, computed
independently per axis; for degenerate bounds the two corners are
min/max-normalised by the `Bounds` constructor. -/
theorem pxBoundsToTileRange_corners (bounds : B) (tileSize : Pt)
    (hx : ⌊bounds.min.x / tileSize.x⌋ ≤ ⌈bounds.max.x / tileSize.x⌉ - 1)
    (hy : ⌊bounds.min.y / tileSize.y⌋ ≤ ⌈bounds.max.y / tileSize.y⌉ - 1) :
    pxBoundsToTileRange bounds tileSize =
      ⟨⟨(⌊bounds.min.x / tileSize.x⌋ : ℤ), (⌊bounds.min.y / tileSize.y⌋ : ℤ)⟩,
       ⟨((⌈bounds.max.x / tileSize.x⌉ - 1 : ℤ) : ℚ),
        ((⌈bounds.max.y / tileSize.y⌉ - 1 : ℤ) : ℚ)⟩⟩ := by
  have hx' : ((⌊bounds.min.x / tileSize.x⌋ : ℤ) : ℚ) ≤
      ((⌈bounds.max.x / tileSize.x⌉ - 1 : ℤ) : ℚ) := by exact_mod_cast hx
  have hy' : ((⌊bounds.min.y / tileSize.y⌋ : ℤ) : ℚ) ≤
      ((⌈bounds.max.y / tileSize.y⌉ - 1 : ℤ) : ℚ) := by exact_mod_cast hy
  simp only [pxBoundsToTileRange, mkBounds, Pt.unscaleBy, Pt.floorPt, Pt.ceilPt,
    Pt.sub, B.mk.injEq, Pt.mk.injEq]
  push_cast at hx' hy' ⊢
  constructor
  · exact ⟨min_eq_left hx', min_eq_left hy'⟩
  · exact ⟨max_eq_right hx', max_eq_right hy'⟩

/-- C3 witness: the amended corner formula, evaluated on the pixel bounds
((0,0),(256,256)) with tile size (256,256). -/
theorem pxBoundsToTileRange_corners_witness :
    (⌊(0 : ℚ) / 256⌋ ≤ ⌈(256 : ℚ) / 256⌉ - 1) ∧
    pxBoundsToTileRange ⟨⟨0, 0⟩, ⟨256, 256⟩⟩ ⟨256, 256⟩ =
      ⟨⟨(⌊(0 : ℚ) / 256⌋ : ℤ), (⌊(0 : ℚ) / 256⌋ : ℤ)⟩,
       ⟨((⌈(256 : ℚ) / 256⌉ - 1 : ℤ) : ℚ), ((⌈(256 : ℚ) / 256⌉ - 1 : ℤ) : ℚ)⟩⟩ :=
  ⟨by norm_num,
   pxBoundsToTileRange_corners ⟨⟨0, 0⟩, ⟨256, 256⟩⟩ ⟨256, 256⟩ (by norm_num) (by norm_num)⟩

/-- C5 counterexample: with minZoom 0, maxZoom 10, zoomSnap 3 and input
zoom 11, `_limitZoom` snaps first (to 12) and then clamps (to 10), while
the claimed snap-after-clamp order gives round(10/3)*3 = 9. -/
theorem limitZoom_claim_false :
    limitZoom 0 10 3 11 ≠ limitZoomClaimOrder 0 10 3 11 := by
  simp only [limitZoom, limitZoomClaimOrder, jsRound]
  norm_num

/-- C5 (amended): `_limitZoom` first snaps the zoom to the `zoomSnap`
increment when that increment is nonzero, and then clamps the snapped
value to [minZoom, maxZoom] — the result equals
clamp(snap(z, zoomSnap), minZoom, maxZoom), and whenever
minZoom ≤ maxZoom the result lies inside [minZoom, maxZoom] (which the
claimed clamp-then-snap order does not guarantee). -/
theorem limitZoom_snap_then_clamp (minZ maxZ snap zoom : ℚ)
    (h : minZ ≤ maxZ) :
    limitZoom minZ maxZ snap zoom =
      max minZ (min maxZ
        (if snap ≠ 0 then (jsRound (zoom / snap) : ℚ) * snap else zoom)) ∧
    minZ ≤ limitZoom minZ maxZ snap zoom ∧
    limitZoom minZ maxZ snap zoom ≤ maxZ := by
  refine ⟨rfl, le_max_left _ _, ?_⟩
  exact max_le h (min_le_left _ _)

/-- C5 witness: the amended statement at minZoom 0, maxZoom 10,
zoomSnap 3, zoom 11. -/
theorem limitZoom_snap_then_clamp_witness :
    (0 : ℚ) ≤ 10 ∧
    (limitZoom 0 10 3 11 =
        max 0 (min 10 (if (3 : ℚ) ≠ 0 then (jsRound ((11 : ℚ) / 3) : ℚ) * 3 else 11)) ∧
      (0 : ℚ) ≤ limitZoom 0 10 3 11 ∧ limitZoom 0 10 3 11 ≤ 10) :=
  ⟨by norm_num, limitZoom_snap_then_clamp 0 10 3 11 (by norm_num)⟩

/-- C7: `SphericalMercator.project` clamps the latitude to
±MAX_LATITUDE = ±85.0511287798 before projecting, so any latitude at or
above the clamp projects to exactly the same plane point (same x and same
y) as the clamp latitude itself, for any host `Math.PI`/`Math.sin`/
`Math.log` and any longitude. -/
theorem mercatorProject_latitude_clamp (pi : ℚ) (sinf logf : ℚ → ℚ)
    (lat lng : ℚ) (h : MAX_LATITUDE ≤ lat) :
    mercatorProject pi sinf logf lat lng =
      mercatorProject pi sinf logf MAX_LATITUDE lng := by
  simp only [mercatorProject, min_eq_left h, min_self]

/-- C7 witness: projecting latitude 90 equals projecting the clamp
latitude 85.0511287798 (longitude 0, abstract math functions
instantiated with the identity). -/
theorem mercatorProject_latitude_clamp_witness :
    MAX_LATITUDE ≤ 90 ∧
    mercatorProject 0 id id 90 0 = mercatorProject 0 id id MAX_LATITUDE 0 :=
  ⟨by norm_num [MAX_LATITUDE],
   mercatorProject_latitude_clamp 0 id id 90 0 (by norm_num [MAX_LATITUDE])⟩

/-! ### JS numbers with non-finite values (for LatLng validation and the
infinite-tile-range guard) -/

/-- A JS double restricted to the values these code paths distinguish:
NaN, the two infinities, and finite numbers (as rationals). -/
inductive JsNum where
  | nan : JsNum
  | posInf : JsNum
  | negInf : JsNum
  | num : ℚ → JsNum
deriving DecidableEq

namespace JsNum

/-- JS `isNaN` on a number. -/
def isNaN' : JsNum → Bool
  | nan => true
  | _ => false

/-- JS `isFinite` on a number. -/
def isFiniteJ : JsNum → Bool
  | num _ => true
  | _ => false

end JsNum

/-- `LatLng {lat, lng, alt}` as stored by the constructor. -/
structure LatLngJs where
  lat : JsNum
  lng : JsNum
  alt : Option JsNum
deriving DecidableEq

/-- The `LatLng` constructor (src/GoogleJsStyle/Geometric-Primitives.js):
`if (isNaN(lat) || isNaN(lng)) throw new Error('Invalid LatLng object: ...')`,
otherwise the fields are stored (`+lat` / `+lng` are identities on
numbers, and `alt` is stored only when not undefined). -/
def mkLatLng (lat lng : JsNum) (alt : Option JsNum) : Except String LatLngJs :=
  if lat.isNaN' || lng.isNaN' then .error "Invalid LatLng object"
  else .ok ⟨lat, lng, alt⟩

/-- C6 counterexample: constructing `LatLng(Infinity, 0)` succeeds — the
constructor checks only `isNaN`, so an infinite latitude (or longitude) is
accepted, contradicting the claim that every non-finite component is
rejected. -/
theorem mkLatLng_claim_false :
    mkLatLng .posInf (.num 0) none = .ok ⟨.posInf, .num 0, none⟩ := by
  rfl

/-- C6 (amended): `LatLng` construction fails exactly when the latitude or
the longitude is NaN; infinite components are accepted and stored
unchanged. -/
theorem mkLatLng_error_iff (lat lng : JsNum) (alt : Option JsNum) :
    mkLatLng lat lng alt = .error "Invalid LatLng object" ↔
      (lat = .nan ∨ lng = .nan) := by
  have hl : lat.isNaN' = true ↔ lat = .nan := by cases lat <;> simp [JsNum.isNaN']
  have hg : lng.isNaN' = true ↔ lng = .nan := by cases lng <;> simp [JsNum.isNaN']
  unfold mkLatLng
  by_cases h : lat.isNaN' || lng.isNaN'
  · simp only [h, if_true, true_iff]
    rcases Bool.or_eq_true_iff.mp h with h' | h'
    · exact Or.inl (hl.mp h')
    · exact Or.inr (hg.mp h')
  · simp only [h, if_false]
    simp only [Bool.or_eq_true_iff, not_or, Bool.not_eq_true] at h
    constructor
    · intro hcontra
      exact absurd hcontra (by simp)
    · rintro (h' | h')
      · exact absurd (hl.mpr h') (by simp [h.1])
      · exact absurd (hg.mpr h') (by simp [h.2])

/-! ### Map view state: getCenter / getZoom (src/GoogleJsStyle/Map-core.js) -/

/-- The slice of Map state these accessors read: `_loaded` (set by the
first `_resetView` from `setView`), `_zoom` (undefined until set),
`_lastCenter`, the `_moved()` flag, and the center derived from
`layerPointToLatLng(_getCenterLayerPoint())` (a pane-geometry computation
abstracted as a stored value). -/
structure MapState where
  loaded : Bool
  zoom : Option ℚ
  lastCenter : Option (ℚ × ℚ)
  moved : Bool
  derivedCenter : ℚ × ℚ

/-- `Map._checkIfLoaded`: `if (!this._loaded) throw new Error('Set map
center and zoom first.')`. -/
def checkIfLoaded (s : MapState) : Except String Unit :=
  if !s.loaded then .error "Set map center and zoom first." else .ok ()

/-- `Map.getCenter`: `this._checkIfLoaded(); if (this._lastCenter &&
!this._moved()) return this._lastCenter.clone(); return
this.layerPointToLatLng(this._getCenterLayerPoint())`. -/
def getCenter (s : MapState) : Except String (ℚ × ℚ) :=
  match checkIfLoaded s with
  | .error e => .error e
  | .ok _ =>
    match s.lastCenter with
    | some c => if !s.moved then .ok c else .ok s.derivedCenter
    | none => .ok s.derivedCenter

/-- `Map.getZoom`: `return this._zoom` — no loaded check, no throw. -/
def getZoom (s : MapState) : Except String (Option ℚ) :=
  .ok s.zoom

/-- A map on which `setView` has never run: `_loaded` and `_zoom` both
undefined. -/
def freshMap : MapState :=
  ⟨false, none, none, false, (0, 0)⟩

/-- C9 counterexample: on a map whose view was never set, `getCenter`
raises the uninitialized-view error but `getZoom` returns successfully
(with the undefined `_zoom`), contradicting the claim that both accessors
raise and neither returns a value. -/
theorem getZoom_claim_false :
    getCenter freshMap = .error "Set map center and zoom first." ∧
      getZoom freshMap = .ok none := by
  exact ⟨rfl, rfl⟩

/-- C9 (amended): before the first `setView` (while `_loaded` is unset),
`getCenter` raises the "Set map center and zoom first." error, while
`getZoom` never raises and simply returns the stored `_zoom` (undefined
until it is first assigned). -/
theorem getCenter_error_getZoom_ok (s : MapState) (h : s.loaded = false) :
    getCenter s = .error "Set map center and zoom first." ∧
      getZoom s = .ok s.zoom := by
  refine ⟨?_, rfl⟩
  unfold getCenter checkIfLoaded
  simp [h]

/-- C9 witness: the amended statement on the fresh map. -/
theorem getCenter_error_getZoom_ok_witness :
    freshMap.loaded = false ∧
      (getCenter freshMap = .error "Set map center and zoom first." ∧
        getZoom freshMap = .ok freshMap.zoom) :=
  ⟨rfl, getCenter_error_getZoom_ok freshMap rfl⟩

/-! ### Properties of the JS remainder and of wrapNum -/

theorem jsTrunc_of_nonneg {q : ℚ} (h : 0 ≤ q) : jsTrunc q = ⌊q⌋ :=
  if_pos h

theorem jsTrunc_neg (q : ℚ) : jsTrunc (-q) = -jsTrunc q := by
  rcases lt_trichotomy q 0 with h | h | h
  · rw [jsTrunc, jsTrunc, if_pos (by linarith), if_neg (by linarith), Int.floor_neg]
  · subst h; simp [jsTrunc]
  · rw [jsTrunc, jsTrunc, if_neg (by linarith), if_pos h.le, Int.ceil_neg]

theorem jsMod_neg_left (a b : ℚ) : jsMod (-a) b = -jsMod a b := by
  unfold jsMod
  rw [neg_div, jsTrunc_neg]
  push_cast
  ring

theorem jsMod_nonneg_bounds {a b : ℚ} (hb : 0 < b) (ha : 0 ≤ a) :
    0 ≤ jsMod a b ∧ jsMod a b < b := by
  have htr : jsTrunc (a / b) = ⌊a / b⌋ := jsTrunc_of_nonneg (div_nonneg ha hb.le)
  have hEq : jsMod a b = b * Int.fract (a / b) := by
    rw [jsMod, htr, Int.fract]
    field_simp
  constructor
  · rw [hEq]; exact mul_nonneg hb.le (Int.fract_nonneg _)
  · rw [hEq]
    calc b * Int.fract (a / b) < b * 1 :=
          (mul_lt_mul_left hb).mpr (Int.fract_lt_one _)
      _ = b := mul_one b

theorem jsMod_bounds {b : ℚ} (hb : 0 < b) (a : ℚ) :
    -b < jsMod a b ∧ jsMod a b < b := by
  rcases le_or_lt 0 a with ha | ha
  · obtain ⟨h0, h1⟩ := jsMod_nonneg_bounds hb ha
    exact ⟨by linarith, h1⟩
  · have := jsMod_nonneg_bounds hb (a := -a) (by linarith)
    have hneg : jsMod a b = -jsMod (-a) b := by
      rw [jsMod_neg_left, neg_neg]
    constructor <;> [skip; skip] <;> rw [hneg] <;> linarith [this.1, this.2]

theorem jsMod_eq_self {a b : ℚ} (hb : 0 < b) (h0 : 0 ≤ a) (h1 : a < b) :
    jsMod a b = a := by
  have hfl : ⌊a / b⌋ = 0 := by
    rw [Int.floor_eq_zero_iff]
    exact ⟨div_nonneg h0 hb.le, (div_lt_one hb).mpr h1⟩
  rw [jsMod, jsTrunc_of_nonneg (div_nonneg h0 hb.le), hfl]
  push_cast
  ring

theorem jsMod_add_right_self {a b : ℚ} (hb : 0 < b) (h0 : 0 ≤ a) (h1 : a < b) :
    jsMod (a + b) b = a := by
  have hfl : ⌊(a + b) / b⌋ = 1 := by
    have : (a + b) / b = a / b + 1 := by field_simp
    rw [this, Int.floor_add_one, Int.floor_eq_zero_iff.mpr
      ⟨div_nonneg h0 hb.le, (div_lt_one hb).mpr h1⟩]
    norm_num
  rw [jsMod, jsTrunc_of_nonneg (by positivity), hfl]
  push_cast
  ring

/-- In the non-shortcut branch, `wrapNum` lands in the half-open interval
[rmin, rmax). -/
theorem wrapNum_mem {x rmin rmax : ℚ} {incl : Bool} (h : rmin < rmax)
    (hne : ¬(x = rmax ∧ incl = true)) :
    rmin ≤ wrapNum x rmin rmax incl ∧ wrapNum x rmin rmax incl < rmax := by
  have hd : 0 < rmax - rmin := by linarith
  unfold wrapNum
  rw [if_neg hne]
  obtain ⟨hy1, hy2⟩ := jsMod_bounds hd (x - rmin)
  obtain ⟨hm1, hm2⟩ := jsMod_nonneg_bounds hd
    (a := jsMod (x - rmin) (rmax - rmin) + (rmax - rmin)) (by linarith)
  constructor <;> [linarith; linarith]

/-- `wrapNum` (without includeMax) fixes every point of [rmin, rmax). -/
theorem wrapNum_fixed {x rmin rmax : ℚ} (h : rmin < rmax)
    (h0 : rmin ≤ x) (h1 : x < rmax) :
    wrapNum x rmin rmax false = x := by
  have hd : 0 < rmax - rmin := by linarith
  have hinner : jsMod (x - rmin) (rmax - rmin) = x - rmin :=
    jsMod_eq_self hd (by linarith) (by linarith)
  unfold wrapNum
  rw [if_neg (by simp), hinner,
    jsMod_add_right_self hd (by linarith) (by linarith)]
  ring

theorem wrapNum_idem {x rmin rmax : ℚ} (h : rmin < rmax) :
    wrapNum (wrapNum x rmin rmax false) rmin rmax false =
      wrapNum x rmin rmax false := by
  obtain ⟨h0, h1⟩ := @wrapNum_mem x rmin rmax false h (by simp)
  exact wrapNum_fixed h h0 h1

/-! ### GridLayer._wrapCoords (src/unnamed/part_002) and C8 -/

/-- A tile coordinate as `_wrapCoords` handles it: a `Point` with a `z`
property (all JS numbers). -/
structure TileCoordQ where
  x : ℚ
  y : ℚ
  z : ℚ
deriving DecidableEq

/-- `GridLayer._wrapCoords`: each axis wraps through `wrapNum` when the
corresponding `_wrapX` / `_wrapY` range is configured (truthy), with
`includeMax` omitted (falsy), and `z` is copied through. -/
def wrapCoords (wrapX wrapY : Option (ℚ × ℚ)) (c : TileCoordQ) : TileCoordQ :=
  ⟨(match wrapX with
    | some r => wrapNum c.x r.1 r.2 false
    | none => c.x),
   (match wrapY with
    | some r => wrapNum c.y r.1 r.2 false
    | none => c.y),
   c.z⟩

/-- C8: tile-coordinate wrapping is idempotent — with any configured wrap
ranges (each a nonempty interval, as produced by `_resetGrid`), applying
`_wrapCoords` twice gives the same result as applying it once, and the
`z` component is preserved. -/
theorem wrapCoords_idem (wrapX wrapY : Option (ℚ × ℚ)) (c : TileCoordQ)
    (hx : ∀ p, wrapX = some p → p.1 < p.2)
    (hy : ∀ p, wrapY = some p → p.1 < p.2) :
    wrapCoords wrapX wrapY (wrapCoords wrapX wrapY c) =
      wrapCoords wrapX wrapY c ∧
    (wrapCoords wrapX wrapY c).z = c.z := by
  refine ⟨?_, rfl⟩
  unfold wrapCoords
  cases wrapX with
  | none =>
    cases wrapY with
    | none => rfl
    | some r =>
      simp only [TileCoordQ.mk.injEq]
      refine ⟨trivial, wrapNum_idem (hy r rfl), trivial⟩
  | some r =>
    cases wrapY with
    | none =>
      simp only [TileCoordQ.mk.injEq]
      refine ⟨wrapNum_idem (hx r rfl), trivial, trivial⟩
    | some r' =>
      simp only [TileCoordQ.mk.injEq]
      refine ⟨wrapNum_idem (hx r rfl), wrapNum_idem (hy r' rfl), trivial⟩

/-- C8 witness: idempotence at the wrap range [0, 8) on x (no y wrap) and
the tile coordinate (10, -3, 5). -/
theorem wrapCoords_idem_witness :
    (∀ p : ℚ × ℚ, some ((0 : ℚ), (8 : ℚ)) = some p → p.1 < p.2) ∧
    wrapCoords (some (0, 8)) none (wrapCoords (some (0, 8)) none ⟨10, -3, 5⟩) =
      wrapCoords (some (0, 8)) none ⟨10, -3, 5⟩ :=
  ⟨fun p hp => by cases hp; norm_num,
   (wrapCoords_idem (some (0, 8)) none ⟨10, -3, 5⟩
     (fun p hp => by cases hp; norm_num)
     (fun p hp => by cases hp)).1⟩

/-! ### CRS.wrapLatLng on the Earth CRS (src/GoogleJsStyle/Projection-and-crs.js)
and C10 -/

/-- A finite `LatLng` (the wrap path with valid coordinates). -/
structure LatLngQ where
  lat : ℚ
  lng : ℚ
  alt : Option ℚ
deriving DecidableEq

/-- `CRS.wrapLatLng` on the Earth CRS: `wrapLng = [-180, 180]` is
configured so the longitude goes through `wrapNum(lng, [-180, 180], true)`;
`wrapLat` is undefined so the latitude is passed through; the altitude is
carried into the new `LatLng`. -/
def wrapLatLngEarth (ll : LatLngQ) : LatLngQ :=
  ⟨ll.lat, wrapNum ll.lng (-180) 180 true, ll.alt⟩

/-- C10: on the Earth CRS, `wrapLatLng` maps every longitude into
[-180, 180), except that a longitude of exactly 180 is returned unchanged
(the includeMax shortcut); latitude and altitude are always returned
unchanged. -/
theorem wrapLatLngEarth_spec (ll : LatLngQ) :
    (wrapLatLngEarth ll).lat = ll.lat ∧
    (wrapLatLngEarth ll).alt = ll.alt ∧
    (if ll.lng = 180 then (wrapLatLngEarth ll).lng = 180
     else -180 ≤ (wrapLatLngEarth ll).lng ∧ (wrapLatLngEarth ll).lng < 180) := by
  refine ⟨rfl, rfl, ?_⟩
  by_cases h : ll.lng = 180
  · rw [if_pos h]
    show wrapNum ll.lng (-180) 180 true = 180
    rw [wrapNum, if_pos ⟨h, rfl⟩, h]
  · rw [if_neg h]
    exact wrapNum_mem (by norm_num) (fun hc => h hc.1)

/-! ### Tile keys (src/unnamed/part_002: _tileCoordsToKey / _keyToTileCoords)

JS strings are modelled as lists of characters.  `coords.x + ':' + ...`
stringifies the integer coordinates in signed decimal (the JS number→string
conversion for integers of ordinary magnitude), and `+k[i]` parses a signed
decimal string back to the number it denotes. -/

/-- Decimal digits of `n`, most significant first (the digits the JS
number→string conversion produces). -/
def natDigits (n : ℕ) : List ℕ :=
  if n < 10 then [n] else natDigits (n / 10) ++ [n % 10]
termination_by n
decreasing_by exact Nat.div_lt_self (by omega) (by omega)

/-- Value denoted by a most-significant-first digit list. -/
def digitsVal (l : List ℕ) : ℕ := l.foldl (fun a d => 10 * a + d) 0

theorem natDigits_ne_nil (n : ℕ) : natDigits n ≠ [] := by
  unfold natDigits
  split
  · simp
  · simp

theorem natDigits_lt10 (n : ℕ) : ∀ d ∈ natDigits n, d < 10 := by
  induction n using Nat.strong_induction_on with
  | _ n ih =>
    unfold natDigits
    split
    · next h => intro d hd; simp only [List.mem_singleton] at hd; omega
    · next h =>
      intro d hd
      simp only [List.mem_append, List.mem_singleton] at hd
      rcases hd with hd | hd
      · exact ih (n / 10) (Nat.div_lt_self (by omega) (by omega)) d hd
      · subst hd; exact Nat.mod_lt _ (by omega)

theorem digitsVal_append_singleton (l : List ℕ) (d : ℕ) :
    digitsVal (l ++ [d]) = 10 * digitsVal l + d := by
  simp [digitsVal, List.foldl_append]

theorem digitsVal_natDigits (n : ℕ) : digitsVal (natDigits n) = n := by
  induction n using Nat.strong_induction_on with
  | _ n ih =>
    unfold natDigits
    split
    · simp [digitsVal]
    · next h =>
      rw [digitsVal_append_singleton,
        ih (n / 10) (Nat.div_lt_self (by omega) (by omega))]
      omega

/-- The character string of a natural number (JS number→string). -/
def natToChars (n : ℕ) : List Char := (natDigits n).map Nat.digitChar

/-- The character string of an integer (JS number→string, signed decimal). -/
def intToChars (v : ℤ) : List Char :=
  if v < 0 then '-' :: natToChars (-v).toNat else natToChars v.toNat

/-- Digit accumulation performed by the JS unary `+` on an unsigned
decimal string. -/
def parseDigits (l : List Char) : ℕ :=
  l.foldl (fun a c => 10 * a + (c.toNat - 48)) 0

/-- The JS unary `+` on a signed decimal string. -/
def jsParse (l : List Char) : ℤ :=
  match l with
  | [] => 0
  | c :: rest => if c = '-' then -(parseDigits rest : ℤ) else (parseDigits (c :: rest) : ℤ)

theorem digitChar_toNat {d : ℕ} (h : d < 10) : (Nat.digitChar d).toNat - 48 = d := by
  interval_cases d <;> decide

theorem digitChar_ne_colon {d : ℕ} (h : d < 10) : Nat.digitChar d ≠ ':' := by
  interval_cases d <;> decide

theorem digitChar_ne_minus {d : ℕ} (h : d < 10) : Nat.digitChar d ≠ '-' := by
  interval_cases d <;> decide

theorem parseDigits_foldl_map :
    ∀ (l : List ℕ), (∀ d ∈ l, d < 10) → ∀ a : ℕ,
      (l.map Nat.digitChar).foldl (fun a c => 10 * a + (c.toNat - 48)) a =
        l.foldl (fun a d => 10 * a + d) a := by
  intro l
  induction l with
  | nil => intro _ a; rfl
  | cons d t ih =>
    intro h a
    simp only [List.map_cons, List.foldl_cons]
    rw [digitChar_toNat (h d (List.mem_cons_self d t))]
    exact ih (fun x hx => h x (List.mem_cons_of_mem d hx)) (10 * a + d)

theorem parseDigits_natToChars (n : ℕ) : parseDigits (natToChars n) = n := by
  unfold parseDigits natToChars
  rw [parseDigits_foldl_map (natDigits n) (natDigits_lt10 n) 0]
  exact digitsVal_natDigits n

theorem jsParse_natToChars (n : ℕ) : jsParse (natToChars n) = (n : ℤ) := by
  rcases hnd : natDigits n with _ | ⟨d, t⟩
  · exact absurd hnd (natDigits_ne_nil n)
  · have hlt := natDigits_lt10 n
    rw [hnd] at hlt
    have hne : Nat.digitChar d ≠ '-' :=
      digitChar_ne_minus (hlt d (List.mem_cons_self d t))
    have hform : natToChars n = Nat.digitChar d :: t.map Nat.digitChar := by
      rw [natToChars, hnd, List.map_cons]
    rw [hform, jsParse, if_neg hne, ← List.map_cons, ← hnd]
    rw [show ((natDigits n).map Nat.digitChar) = natToChars n from rfl,
      parseDigits_natToChars]

theorem jsParse_intToChars (v : ℤ) : jsParse (intToChars v) = v := by
  unfold intToChars
  split
  · next h =>
    rw [jsParse, if_pos rfl, parseDigits_natToChars]
    omega
  · next h =>
    rw [jsParse_natToChars]
    omega

/-- JS `String.prototype.split(':')` on a character list. -/
def splitColon (l : List Char) : List (List Char) :=
  match l with
  | [] => [[]]
  | c :: rest =>
    if c = ':' then [] :: splitColon rest
    else
      match splitColon rest with
      | [] => [[c]]
      | p :: ps => (c :: p) :: ps

theorem splitColon_no_colon (l : List Char) (hl : ∀ c ∈ l, c ≠ ':') :
    splitColon l = [l] := by
  induction l with
  | nil => rfl
  | cons c t ih =>
    rw [splitColon, if_neg (hl c (List.mem_cons_self c t)),
      ih (fun x hx => hl x (List.mem_cons_of_mem c hx))]

theorem splitColon_append (l r : List Char) (hl : ∀ c ∈ l, c ≠ ':') :
    splitColon (l ++ ':' :: r) = l :: splitColon r := by
  induction l with
  | nil => simp [splitColon]
  | cons c t ih =>
    rw [List.cons_append, splitColon, if_neg (hl c (List.mem_cons_self c t)),
      ih (fun x hx => hl x (List.mem_cons_of_mem c hx))]

/-- `GridLayer._tileCoordsToKey`: `coords.x + ':' + coords.y + ':' + coords.z`. -/
def tileCoordsToKey (x y z : ℤ) : List Char :=
  intToChars x ++ ':' :: (intToChars y ++ ':' :: intToChars z)

/-- `GridLayer._keyToTileCoords`: `const k = key.split(':');
new Point(+k[0], +k[1])` with `coords.z = +k[2]`. -/
def keyToTileCoords (k : List Char) : ℤ × ℤ × ℤ :=
  let parts := splitColon k
  (jsParse (parts.getD 0 []), jsParse (parts.getD 1 []), jsParse (parts.getD 2 []))

theorem intToChars_no_colon (v : ℤ) : ∀ c ∈ intToChars v, c ≠ ':' := by
  intro c hc
  unfold intToChars at hc
  have hdig : ∀ m : ℕ, c ∈ natToChars m → c ≠ ':' := by
    intro m hm
    unfold natToChars at hm
    obtain ⟨d, hd, hcd⟩ := List.mem_map.mp hm
    subst hcd
    exact digitChar_ne_colon (natDigits_lt10 m d hd)
  split at hc
  · rcases List.mem_cons.mp hc with h | h
    · subst h; decide
    · exact hdig _ h
  · exact hdig _ hc

/-- C4: tile key encoding/decoding is a lossless bijection — for every
integer tile coordinate (x, y, z), including negative x and y, decoding
the encoded key recovers exactly the integers encoded. -/
theorem keyToTileCoords_tileCoordsToKey (x y z : ℤ) :
    keyToTileCoords (tileCoordsToKey x y z) = (x, y, z) := by
  unfold keyToTileCoords tileCoordsToKey
  rw [splitColon_append _ _ (intToChars_no_colon x),
    splitColon_append _ _ (intToChars_no_colon y),
    splitColon_no_colon _ (intToChars_no_colon z)]
  simp only [List.getD, List.get?, Option.getD_some]
  rw [jsParse_intToChars, jsParse_intToChars, jsParse_intToChars]


/-! ### The tile lifecycle manager: _pruneTiles (src/unnamed/part_002, C1)

The tile-key map `this._tiles` is modelled as a list of tile records with
unique coordinate keys (the key string is the coordinate triple by the C4
bijection); JS in-place mutation of a tile's `retain` flag becomes a pure
rewrite of the matching entry.  `Math.floor(x / 2)` on the integer tile
indices is `Int.fdiv`. -/


structure Tile where
  x : ℤ
  y : ℤ
  z : ℤ
  current : Bool
  active : Bool
  loaded : Bool
  retain : Bool
deriving DecidableEq

abbrev Coords := ℤ × ℤ × ℤ

def Tile.coords (t : Tile) : Coords := (t.x, t.y, t.z)

def getTile (ts : List Tile) (x y z : ℤ) : Option Tile :=
  ts.find? (fun t => t.x == x && t.y == y && t.z == z)

def markRetain (ts : List Tile) (x y z : ℤ) : List Tile :=
  ts.map (fun t => if t.x = x ∧ t.y = y ∧ t.z = z then {t with retain := true} else t)

def retainParent (ts : List Tile) (x y z minZoom : ℤ) : List Tile × Bool :=
  let x2 := Int.fdiv x 2
  let y2 := Int.fdiv y 2
  let z2 := z - 1
  match getTile ts x2 y2 z2 with
  | some t =>
    if t.active then (markRetain ts x2 y2 z2, true)
    else
      let ts' := if t.loaded then markRetain ts x2 y2 z2 else ts
      if z2 > minZoom then retainParent ts' x2 y2 z2 minZoom
      else (ts', false)
  | none =>
    if z2 > minZoom then retainParent ts x2 y2 z2 minZoom
    else (ts, false)
termination_by (z - minZoom).toNat
decreasing_by all_goals (simp_wf; try omega)

mutual

def retainChildren (ts : List Tile) (x y z maxZoom : ℤ) : List Tile :=
  let ts1 := retainChildOne ts (2 * x) (2 * y) z maxZoom
  let ts2 := retainChildOne ts1 (2 * x) (2 * y + 1) z maxZoom
  let ts3 := retainChildOne ts2 (2 * x + 1) (2 * y) z maxZoom
  retainChildOne ts3 (2 * x + 1) (2 * y + 1) z maxZoom
termination_by 2 * (maxZoom - z).toNat + 1
decreasing_by all_goals (simp_wf; try omega)

def retainChildOne (ts : List Tile) (i j z maxZoom : ℤ) : List Tile :=
  match getTile ts i j (z + 1) with
  | some t =>
    if t.active then markRetain ts i j (z + 1)
    else
      let ts' := if t.loaded then markRetain ts i j (z + 1) else ts
      if z + 1 < maxZoom then retainChildren ts' i j (z + 1) maxZoom else ts'
  | none =>
    if z + 1 < maxZoom then retainChildren ts i j (z + 1) maxZoom else ts
termination_by 2 * (maxZoom - z).toNat
decreasing_by all_goals (simp_wf; try omega)

end

def pruneTiles (zoom minZ maxZ : ℚ) (ts : List Tile) : List Tile × List Coords :=
  if zoom > maxZ ∨ zoom < minZ then
    ([], ts.map Tile.coords)
  else
    let m1 := ts.map (fun t => {t with retain := t.current})
    let m2 := m1.foldl
      (fun acc t =>
        if t.current && !t.active then
          let r := retainParent acc t.x t.y t.z (t.z - 5)
          if r.2 then r.1 else retainChildren r.1 t.x t.y t.z (t.z + 2)
        else acc) m1
    (m2.filter (fun t => t.retain), (m2.filter (fun t => !t.retain)).map Tile.coords)

def statQ (ts : List Tile) : ℤ → ℤ → ℤ → Option (Bool × Bool) :=
  fun x y z => (getTile ts x y z).map (fun t => (t.active, t.loaded))

def parentScan (q : ℤ → ℤ → ℤ → Option (Bool × Bool)) (x y z minZoom : ℤ) :
    List Coords × Bool :=
  let x2 := Int.fdiv x 2
  let y2 := Int.fdiv y 2
  let z2 := z - 1
  match q x2 y2 z2 with
  | some st =>
    if st.1 then ([(x2, y2, z2)], true)
    else
      let head := if st.2 then [((x2, y2, z2) : Coords)] else []
      if z2 > minZoom then
        let r := parentScan q x2 y2 z2 minZoom
        (head ++ r.1, r.2)
      else (head, false)
  | none =>
    if z2 > minZoom then parentScan q x2 y2 z2 minZoom
    else ([], false)
termination_by (z - minZoom).toNat
decreasing_by all_goals (simp_wf; try omega)

mutual

def childScan (q : ℤ → ℤ → ℤ → Option (Bool × Bool)) (x y z maxZoom : ℤ) :
    List Coords :=
  childScanOne q (2 * x) (2 * y) z maxZoom ++
  childScanOne q (2 * x) (2 * y + 1) z maxZoom ++
  childScanOne q (2 * x + 1) (2 * y) z maxZoom ++
  childScanOne q (2 * x + 1) (2 * y + 1) z maxZoom
termination_by 2 * (maxZoom - z).toNat + 1
decreasing_by all_goals (simp_wf; try omega)

def childScanOne (q : ℤ → ℤ → ℤ → Option (Bool × Bool)) (i j z maxZoom : ℤ) :
    List Coords :=
  match q i j (z + 1) with
  | some st =>
    if st.1 then [(i, j, z + 1)]
    else
      (if st.2 then [((i, j, z + 1) : Coords)] else []) ++
      (if z + 1 < maxZoom then childScan q i j (z + 1) maxZoom else [])
  | none =>
    if z + 1 < maxZoom then childScan q i j (z + 1) maxZoom else []
termination_by 2 * (maxZoom - z).toNat
decreasing_by all_goals (simp_wf; try omega)

end

def markAll (l : List Coords) (ts : List Tile) : List Tile :=
  l.foldl (fun s c => markRetain s c.1 c.2.1 c.2.2) ts


/-! Pure reading of the prune pass: `statQ` projects the fields the walks
read (they never read `retain`); `parentScan`/`childScan` replay the
recursion of `_retainParent`/`_retainChildren` over that projection,
returning the list of coordinates marked and (for the parent walk) whether
an active ancestor was found. -/

def tileMarks (q : ℤ → ℤ → ℤ → Option (Bool × Bool)) (t : Tile) : List Coords :=
  if t.current && !t.active then
    let r := parentScan q t.x t.y t.z (t.z - 5)
    r.1 ++ (if r.2 then [] else childScan q t.x t.y t.z (t.z + 2))
  else []

def pruneMarks (ts : List Tile) : List Coords :=
  (ts.map (tileMarks (statQ ts))).flatten

def retainPure (ts : List Tile) (t : Tile) : Bool :=
  t.current || decide ((t.x, t.y, t.z) ∈ pruneMarks ts)


/-! The claim's retention rules, stated from the spec's words, for
comparison with what the prune pass actually retains. -/

/-- Iterated parent coordinates: `i` applications of
`(x, y, z) ↦ (floor(x/2), floor(y/2), z - 1)`. -/
def ancestorAt (x y z : ℤ) : ℕ → Coords
  | 0 => (x, y, z)
  | n + 1 =>
    let a := ancestorAt x y z n
    (a.1.fdiv 2, a.2.1.fdiv 2, a.2.2 - 1)

/-- Stated from the claim's words: the closest already-loaded tracked
ancestor of (x, y, z), searched up to 5 zoom levels up. -/
def claimClosestLoadedAncestor (ts : List Tile) (x y z : ℤ) : Option Coords :=
  ((List.range 5).map (fun i => ancestorAt x y z (i + 1))).find?
    (fun a => match getTile ts a.1 a.2.1 a.2.2 with
      | some t => t.loaded
      | none => false)

/-- Stated from the claim's words: whether any tracked ancestor within 5
zoom levels up is active. -/
def claimHasActiveAncestor (ts : List Tile) (x y z : ℤ) : Bool :=
  ((List.range 5).map (fun i => ancestorAt x y z (i + 1))).any
    (fun a => match getTile ts a.1 a.2.1 a.2.2 with
      | some t => t.active
      | none => false)

/-- Stated from the claim's words: whether `c` is a descendant of
(ux, uy, uz) within 2 zoom levels down (a child or a grandchild). -/
def claimIsDescendant (ux uy uz : ℤ) (c : Coords) : Bool :=
  decide ((c.2.2 = uz + 1 ∧ c.1.fdiv 2 = ux ∧ c.2.1.fdiv 2 = uy) ∨
    (c.2.2 = uz + 2 ∧ (c.1.fdiv 2).fdiv 2 = ux ∧ (c.2.1.fdiv 2).fdiv 2 = uy))

/-- The retention rules exactly as the claim states them: a tile is
protected when it is current, or it is the closest already-loaded ancestor
(within 5 levels) of some current not-yet-active tile, or, that tile
having no active ancestor within 5 levels, it is a loaded/active
descendant of it within 2 levels. -/
def claimRetainSpec (ts : List Tile) (t : Tile) : Bool :=
  t.current ||
  ts.any (fun u => u.current && !u.active &&
    (decide (claimClosestLoadedAncestor ts u.x u.y u.z = some (t.x, t.y, t.z)) ||
     (!claimHasActiveAncestor ts u.x u.y u.z && (t.loaded || t.active) &&
      claimIsDescendant u.x u.y u.z (t.x, t.y, t.z))))

/-- A current, not-yet-active tile whose prune pass walks the ancestors. -/
def exT : Tile := ⟨0, 0, 3, true, false, false, false⟩

/-- Its loaded (not active) parent. -/
def exP1 : Tile := ⟨0, 0, 2, false, false, true, false⟩

/-- Its loaded (not active) grandparent: kept by the code, unprotected by
the claim's rules (the parent is the closer loaded ancestor). -/
def exP2 : Tile := ⟨0, 0, 1, false, false, true, false⟩

/-- Its active great-grandparent (stops the ancestor walk). -/
def exP3 : Tile := ⟨0, 0, 0, false, true, true, false⟩

/-- The tracked-tile map of the C1 counterexample. -/
def pruneExample : List Tile := [exT, exP1, exP2, exP3]

/-- A single current, active tile (the C1 witness map). -/
def soleTile : Tile := ⟨5, 7, 4, true, true, true, false⟩

/-- The one-tile map of the C1 witness. -/
def soleTileMap : List Tile := [soleTile]


theorem getTile_markRetain (ts : List Tile) (a b c x y z : ℤ) :
    getTile (markRetain ts a b c) x y z =
      Option.map (fun t => if t.x = a ∧ t.y = b ∧ t.z = c then {t with retain := true} else t)
        (getTile ts x y z) := by
  unfold getTile markRetain
  rw [List.find?_map]
  have hp : ((fun t : Tile => t.x == x && t.y == y && t.z == z) ∘
      (fun t : Tile => if t.x = a ∧ t.y = b ∧ t.z = c then {t with retain := true} else t)) =
      (fun t : Tile => t.x == x && t.y == y && t.z == z) := by
    funext t
    simp only [Function.comp_apply]
    by_cases h : t.x = a ∧ t.y = b ∧ t.z = c <;> simp [h]
  rw [hp]

theorem statQ_markRetain (ts : List Tile) (a b c : ℤ) :
    statQ (markRetain ts a b c) = statQ ts := by
  funext x y z
  simp only [statQ]
  rw [getTile_markRetain]
  rcases getTile ts x y z with _ | t
  · rfl
  · by_cases h : t.x = a ∧ t.y = b ∧ t.z = c <;> simp [h]

theorem markAll_cons (c : Coords) (l : List Coords) (ts : List Tile) :
    markAll (c :: l) ts = markAll l (markRetain ts c.1 c.2.1 c.2.2) := rfl

theorem markAll_append (l1 l2 : List Coords) (ts : List Tile) :
    markAll (l1 ++ l2) ts = markAll l2 (markAll l1 ts) := by
  simp [markAll, List.foldl_append]

theorem statQ_markAll (l : List Coords) (ts : List Tile) :
    statQ (markAll l ts) = statQ ts := by
  induction l generalizing ts with
  | nil => rfl
  | cons c l ih => rw [markAll_cons, ih, statQ_markRetain]


theorem retainParent_eq_aux (n : ℕ) :
    ∀ (ts : List Tile) (x y z m : ℤ), (z - m).toNat ≤ n →
      retainParent ts x y z m =
        (markAll (parentScan (statQ ts) x y z m).1 ts,
         (parentScan (statQ ts) x y z m).2) := by
  induction n with
  | zero =>
    intro ts x y z m hn
    have hguard : ¬(z - 1 > m) := by omega
    rw [retainParent.eq_def, parentScan.eq_def]
    rcases hget : getTile ts (x.fdiv 2) (y.fdiv 2) (z - 1) with _ | t
    · have hq : statQ ts (x.fdiv 2) (y.fdiv 2) (z - 1) = none := by
        simp [statQ, hget]
      simp only [hget, hq, hguard, if_false]
      rfl
    · have hq : statQ ts (x.fdiv 2) (y.fdiv 2) (z - 1) =
          some (t.active, t.loaded) := by
        simp [statQ, hget]
      simp only [hget, hq]
      by_cases hact : t.active
      · simp only [hact, if_true]
        rfl
      · by_cases hld : t.loaded <;>
          simp only [hact, hld, Bool.false_eq_true, if_false, if_true, hguard] <;>
          rfl
  | succ n ih =>
    intro ts x y z m hn
    rw [retainParent.eq_def, parentScan.eq_def]
    rcases hget : getTile ts (x.fdiv 2) (y.fdiv 2) (z - 1) with _ | t
    · have hq : statQ ts (x.fdiv 2) (y.fdiv 2) (z - 1) = none := by
        simp [statQ, hget]
      simp only [hget, hq]
      by_cases hguard : z - 1 > m
      · simp only [hguard, if_true]
        exact ih ts (x.fdiv 2) (y.fdiv 2) (z - 1) m (by omega)
      · simp only [hguard, if_false]
        rfl
    · have hq : statQ ts (x.fdiv 2) (y.fdiv 2) (z - 1) =
          some (t.active, t.loaded) := by
        simp [statQ, hget]
      simp only [hget, hq]
      by_cases hact : t.active
      · simp only [hact, if_true]
        rfl
      · by_cases hguard : z - 1 > m
        · by_cases hld : t.loaded
          · simp only [hact, hld, Bool.false_eq_true, if_false, if_true, hguard]
            rw [ih (markRetain ts (x.fdiv 2) (y.fdiv 2) (z - 1))
              (x.fdiv 2) (y.fdiv 2) (z - 1) m (by omega)]
            rw [statQ_markRetain]
            rfl
          · simp only [hact, hld, Bool.false_eq_true, if_false, if_true, hguard]
            rw [ih ts (x.fdiv 2) (y.fdiv 2) (z - 1) m (by omega)]
            rfl
        · by_cases hld : t.loaded <;>
            simp only [hact, hld, Bool.false_eq_true, if_false, if_true, hguard] <;>
            rfl

theorem retainParent_eq (ts : List Tile) (x y z m : ℤ) :
    retainParent ts x y z m =
      (markAll (parentScan (statQ ts) x y z m).1 ts,
       (parentScan (statQ ts) x y z m).2) :=
  retainParent_eq_aux ((z - m).toNat) ts x y z m le_rfl


theorem retainChild_eq_aux (n : ℕ) :
    (∀ (ts : List Tile) (x y z M : ℤ), 2 * (M - z).toNat + 1 ≤ n →
        retainChildren ts x y z M = markAll (childScan (statQ ts) x y z M) ts) ∧
    (∀ (ts : List Tile) (i j z M : ℤ), 2 * (M - z).toNat ≤ n →
        retainChildOne ts i j z M = markAll (childScanOne (statQ ts) i j z M) ts) := by
  induction n with
  | zero =>
    constructor
    · intro ts x y z M hn
      exact absurd hn (by omega)
    · intro ts i j z M hn
      have hguard : ¬(z + 1 < M) := by omega
      rw [retainChildOne.eq_def, childScanOne.eq_def]
      rcases hget : getTile ts i j (z + 1) with _ | t
      · have hq : statQ ts i j (z + 1) = none := by simp [statQ, hget]
        simp only [hget, hq, hguard, if_false]
        rfl
      · have hq : statQ ts i j (z + 1) = some (t.active, t.loaded) := by
          simp [statQ, hget]
        simp only [hget, hq]
        by_cases hact : t.active
        · simp only [hact, if_true]
          rfl
        · by_cases hld : t.loaded <;>
            simp only [hact, hld, Bool.false_eq_true, if_false, if_true, hguard,
              List.append_nil, List.nil_append] <;>
            rfl
  | succ n ih =>
    constructor
    · intro ts x y z M hn
      have h2 : 2 * (M - z).toNat ≤ n := by omega
      rw [retainChildren.eq_def, childScan.eq_def]
      dsimp only
      rw [(ih.2) ts (2 * x) (2 * y) z M h2]
      rw [(ih.2) _ (2 * x) (2 * y + 1) z M h2, statQ_markAll]
      rw [(ih.2) _ (2 * x + 1) (2 * y) z M h2, statQ_markAll, statQ_markAll]
      rw [(ih.2) _ (2 * x + 1) (2 * y + 1) z M h2, statQ_markAll, statQ_markAll,
        statQ_markAll]
      rw [markAll_append, markAll_append, markAll_append]
    · intro ts i j z M hn
      rw [retainChildOne.eq_def, childScanOne.eq_def]
      rcases hget : getTile ts i j (z + 1) with _ | t
      · have hq : statQ ts i j (z + 1) = none := by simp [statQ, hget]
        simp only [hget, hq]
        by_cases hguard : z + 1 < M
        · simp only [hguard, if_true, List.nil_append]
          exact (ih.1) ts i j (z + 1) M (by omega)
        · simp only [hguard, if_false]
          rfl
      · have hq : statQ ts i j (z + 1) = some (t.active, t.loaded) := by
          simp [statQ, hget]
        simp only [hget, hq]
        by_cases hact : t.active
        · simp only [hact, if_true]
          rfl
        · by_cases hguard : z + 1 < M
          · by_cases hld : t.loaded
            · simp only [hact, hld, Bool.false_eq_true, if_false, if_true, hguard,
                List.singleton_append]
              rw [(ih.1) (markRetain ts i j (z + 1)) i j (z + 1) M (by omega),
                statQ_markRetain, markAll_cons]
            · simp only [hact, hld, Bool.false_eq_true, if_false, if_true, hguard,
                List.nil_append]
              exact (ih.1) ts i j (z + 1) M (by omega)
          · by_cases hld : t.loaded <;>
              simp only [hact, hld, Bool.false_eq_true, if_false, if_true, hguard,
                List.append_nil, List.nil_append] <;>
              rfl

theorem retainChildren_eq (ts : List Tile) (x y z M : ℤ) :
    retainChildren ts x y z M = markAll (childScan (statQ ts) x y z M) ts :=
  (retainChild_eq_aux (2 * (M - z).toNat + 1)).1 ts x y z M le_rfl


theorem markAll_eq_map (l : List Coords) (ts : List Tile) :
    markAll l ts =
      ts.map (fun t => if (t.x, t.y, t.z) ∈ l then {t with retain := true} else t) := by
  induction l generalizing ts with
  | nil => simp [markAll]
  | cons c l ih =>
    rw [markAll_cons, ih, markRetain, List.map_map]
    congr 1
    funext t
    by_cases hc : t.x = c.1 ∧ t.y = c.2.1 ∧ t.z = c.2.2
    · obtain ⟨h1, h2, h3⟩ := hc
      by_cases hm : ((t.x, t.y, t.z) : Coords) ∈ l <;>
        simp [Function.comp, h1, h2, h3, hm, List.mem_cons, Prod.ext_iff]
    · by_cases hm : ((t.x, t.y, t.z) : Coords) ∈ l <;>
        simp [Function.comp, hc, hm, List.mem_cons, Prod.ext_iff]
  
theorem statQ_retainMap (ts : List Tile) (g : Tile → Bool) :
    statQ (ts.map (fun t => {t with retain := g t})) = statQ ts := by
  funext x y z
  simp only [statQ, getTile]
  rw [List.find?_map]
  have hp : ((fun t : Tile => t.x == x && t.y == y && t.z == z) ∘
      (fun t : Tile => {t with retain := g t})) =
      (fun t : Tile => t.x == x && t.y == y && t.z == z) := by
    funext t
    rfl
  rw [hp]
  rcases List.find? (fun t : Tile => t.x == x && t.y == y && t.z == z) ts with _ | t <;> rfl


theorem foldPass_eq (ts0 : List Tile) :
    ∀ (l : List Tile) (acc : List Tile), statQ acc = statQ ts0 →
      l.foldl (fun acc t =>
        if t.current && !t.active then
          let r := retainParent acc t.x t.y t.z (t.z - 5)
          if r.2 then r.1 else retainChildren r.1 t.x t.y t.z (t.z + 2)
        else acc) acc
      = markAll ((l.map (tileMarks (statQ ts0))).flatten) acc := by
  intro l
  induction l with
  | nil =>
    intro acc hacc
    simp [markAll]
  | cons t l ih =>
    intro acc hacc
    simp only [List.foldl_cons, List.map_cons, List.flatten_cons]
    have hstep :
        (if t.current && !t.active then
          let r := retainParent acc t.x t.y t.z (t.z - 5)
          if r.2 then r.1 else retainChildren r.1 t.x t.y t.z (t.z + 2)
        else acc) = markAll (tileMarks (statQ ts0) t) acc := by
      by_cases hc : (t.current && !t.active) = true
      · simp only [tileMarks, hc, if_true]
        rw [retainParent_eq acc t.x t.y t.z (t.z - 5), hacc]
        by_cases hr : (parentScan (statQ ts0) t.x t.y t.z (t.z - 5)).2 = true
        · simp only [hr, if_true, List.append_nil]
        · simp only [hr, Bool.false_eq_true, if_false]
          rw [retainChildren_eq, statQ_markAll, hacc, ← markAll_append]
      · simp only [tileMarks, hc, Bool.false_eq_true, if_false]
        rfl
    rw [hstep, markAll_append]
    exact ih (markAll (tileMarks (statQ ts0) t) acc)
      (by rw [statQ_markAll, hacc])

theorem pruneTiles_spec (zoom minZ maxZ : ℚ) (ts : List Tile)
    (h : ¬(zoom > maxZ ∨ zoom < minZ)) :
    pruneTiles zoom minZ maxZ ts =
      ((ts.map (fun t => {t with retain := retainPure ts t})).filter
          (fun t => t.retain),
       ((ts.map (fun t => {t with retain := retainPure ts t})).filter
          (fun t => !t.retain)).map Tile.coords) := by
  unfold pruneTiles
  rw [if_neg h]
  dsimp only
  rw [foldPass_eq ts _ _ (statQ_retainMap ts (fun t => t.current))]
  rw [List.map_map]
  have hmarks : ((fun t : Tile => tileMarks (statQ ts) t) ∘
      (fun t : Tile => {t with retain := t.current})) = tileMarks (statQ ts) := by
    funext t
    rfl
  rw [hmarks]
  rw [markAll_eq_map, List.map_map]
  have hfinal : ((fun t : Tile =>
      if (t.x, t.y, t.z) ∈ (ts.map (tileMarks (statQ ts))).flatten then
        {t with retain := true} else t) ∘
      (fun t : Tile => {t with retain := t.current})) =
      (fun t : Tile => {t with retain := retainPure ts t}) := by
    funext t
    simp only [Function.comp_apply, retainPure, pruneMarks]
    by_cases hm : ((t.x, t.y, t.z) : Coords) ∈ (ts.map (tileMarks (statQ ts))).flatten <;>
      simp [hm]
  rw [hfinal]


/-- C1 counterexample: in `pruneExample`, (0,0,1) is a loaded ancestor of
the current not-yet-active tile (0,0,3) but not its closest loaded
ancestor (that is (0,0,2)), and it is no descendant, so the claim's rules
do not protect it; yet the prune pass (at map zoom 3 within
[minZoom, maxZoom] = [0, 18]) keeps it — the ancestor walk marks every
loaded ancestor up to the first active one, not only the closest. -/
theorem pruneTiles_claim_false :
    (pruneTiles 3 0 18 pruneExample).1.map Tile.coords =
      [(0, 0, 3), (0, 0, 2), (0, 0, 1), (0, 0, 0)] ∧
    claimRetainSpec pruneExample exP2 = false := by
  constructor
  · simp only [pruneTiles, pruneExample, exT, exP1, exP2, exP3, List.map_cons,
      List.map_nil, List.foldl_cons, List.foldl_nil]
    norm_num only
    simp +decide [retainParent, getTile, markRetain, List.find?, Tile.coords]
  · decide

/-- C1 (amended): with the map zoom inside [minZoom, maxZoom], the prune
pass keeps exactly the tiles protected by the code's marking — a tile
survives iff it is current, or it is marked during the ancestor walk of
some current not-yet-active tile (the walk visits ancestors 1..5 levels
up, marks every loaded or active ancestor it visits, and stops at the
first active one), or, that tile's walk having found no active ancestor
within 5 levels, it is marked during the descendant walk (recursively 2
levels down over all 4 children per level, marking loaded/active
descendants and not recursing past an active one); every tile not so
retained is removed from the tile map and a tileunload notification fires
for it, in tracking order. -/
theorem pruneTiles_characterization (zoom minZ maxZ : ℚ) (ts : List Tile)
    (h : ¬(zoom > maxZ ∨ zoom < minZ)) :
    pruneTiles zoom minZ maxZ ts =
      ((ts.map (fun t => {t with retain := retainPure ts t})).filter
          (fun t => t.retain),
       ((ts.map (fun t => {t with retain := retainPure ts t})).filter
          (fun t => !t.retain)).map Tile.coords) :=
  pruneTiles_spec zoom minZ maxZ ts h

/-- C1 witness: the amended characterization applied at map zoom 3 in
[0, 18] to a one-tile map (a current, active tile). -/
theorem pruneTiles_characterization_witness :
    ¬((3 : ℚ) > 18 ∨ (3 : ℚ) < 0) ∧
    pruneTiles 3 0 18 soleTileMap =
      ((soleTileMap.map (fun t => {t with retain := retainPure soleTileMap t})).filter
          (fun t => t.retain),
       ((soleTileMap.map (fun t => {t with retain := retainPure soleTileMap t})).filter
          (fun t => !t.retain)).map Tile.coords) :=
  ⟨by norm_num, pruneTiles_characterization 3 0 18 soleTileMap (by norm_num)⟩

/-! ### GridLayer._update (src/unnamed/part_002, C2)

The `_update` pass over JS numbers: the infinite-tile-range guard needs
IEEE infinities, so the pixel-bounds arithmetic runs over `JsNum`. -/

namespace JsNum


/-- JS addition on numbers (opposite infinities give NaN). -/
def add : JsNum → JsNum → JsNum
  | nan, _ => nan
  | _, nan => nan
  | posInf, negInf => nan
  | negInf, posInf => nan
  | posInf, _ => posInf
  | _, posInf => posInf
  | negInf, _ => negInf
  | _, negInf => negInf
  | num p, num q => num (p + q)

/-- JS negation. -/
def neg : JsNum → JsNum
  | nan => nan
  | posInf => negInf
  | negInf => posInf
  | num q => num (-q)

/-- JS subtraction `a - b`. -/
def sub (a b : JsNum) : JsNum := add a (neg b)

/-- JS division (signed zero is not modelled: a finite value divided by
zero takes the sign of the numerator, and 0/0, inf/inf are NaN). -/
def div : JsNum → JsNum → JsNum
  | nan, _ => nan
  | _, nan => nan
  | posInf, posInf => nan
  | posInf, negInf => nan
  | negInf, posInf => nan
  | negInf, negInf => nan
  | posInf, num q => if q < 0 then negInf else posInf
  | negInf, num q => if q < 0 then posInf else negInf
  | num _, posInf => num 0
  | num _, negInf => num 0
  | num p, num q =>
    if q = 0 then (if p = 0 then nan else if 0 < p then posInf else negInf)
    else num (p / q)

/-- JS `Math.floor` (NaN and infinities pass through). -/
def floorJ : JsNum → JsNum
  | nan => nan
  | posInf => posInf
  | negInf => negInf
  | num q => num (⌊q⌋ : ℤ)

/-- JS `Math.ceil`. -/
def ceilJ : JsNum → JsNum
  | nan => nan
  | posInf => posInf
  | negInf => negInf
  | num q => num (⌈q⌉ : ℤ)

/-- JS `Math.min` (NaN-propagating). -/
def minJ : JsNum → JsNum → JsNum
  | nan, _ => nan
  | _, nan => nan
  | negInf, _ => negInf
  | _, negInf => negInf
  | posInf, b => b
  | a, posInf => a
  | num p, num q => num (min p q)

/-- JS `Math.max` (NaN-propagating). -/
def maxJ : JsNum → JsNum → JsNum
  | nan, _ => nan
  | _, nan => nan
  | posInf, _ => posInf
  | _, posInf => posInf
  | negInf, b => b
  | a, negInf => a
  | num p, num q => num (max p q)

/-- JS `<=` (false whenever NaN is involved). -/
def leJ : JsNum → JsNum → Bool
  | nan, _ => false
  | _, nan => false
  | negInf, _ => true
  | _, negInf => false
  | _, posInf => true
  | posInf, _ => false
  | num p, num q => p ≤ q


end JsNum


/-- `Point` over JS numbers. -/
structure PtJ where
  x : JsNum
  y : JsNum
deriving DecidableEq

/-- `Point.unscaleBy` over JS numbers. -/
def PtJ.unscaleBy (p s : PtJ) : PtJ := ⟨p.x.div s.x, p.y.div s.y⟩

/-- `Point.floor` over JS numbers. -/
def PtJ.floorPt (p : PtJ) : PtJ := ⟨p.x.floorJ, p.y.floorJ⟩

/-- `Point.ceil` over JS numbers. -/
def PtJ.ceilPt (p : PtJ) : PtJ := ⟨p.x.ceilJ, p.y.ceilJ⟩

/-- `Point.subtract` over JS numbers. -/
def PtJ.sub (p q : PtJ) : PtJ := ⟨p.x.sub q.x, p.y.sub q.y⟩

/-- `Point.add` over JS numbers. -/
def PtJ.add (p q : PtJ) : PtJ := ⟨p.x.add q.x, p.y.add q.y⟩

/-- `Bounds` over JS numbers. -/
structure BJ where
  min : PtJ
  max : PtJ
deriving DecidableEq

/-- `new Bounds(a, b)` over JS numbers (constructor min/max-normalisation). -/
def mkBoundsJ (a b : PtJ) : BJ :=
  ⟨⟨JsNum.minJ a.x b.x, JsNum.minJ a.y b.y⟩, ⟨JsNum.maxJ a.x b.x, JsNum.maxJ a.y b.y⟩⟩

/-- `Bounds.getBottomLeft()`. -/
def BJ.bottomLeft (b : BJ) : PtJ := ⟨b.min.x, b.max.y⟩

/-- `Bounds.getTopRight()`. -/
def BJ.topRight (b : BJ) : PtJ := ⟨b.max.x, b.min.y⟩

/-- `Bounds.contains(point)`. -/
def BJ.containsPt (b : BJ) (p : PtJ) : Bool :=
  JsNum.leJ b.min.x p.x && JsNum.leJ p.x b.max.x &&
  JsNum.leJ b.min.y p.y && JsNum.leJ p.y b.max.y

/-- `GridLayer._pxBoundsToTileRange` over JS numbers. -/
def pxBoundsToTileRangeJ (bounds : BJ) (tileSize : PtJ) : BJ :=
  mkBoundsJ ((bounds.min.unscaleBy tileSize).floorPt)
    (((bounds.max.unscaleBy tileSize).ceilPt).sub ⟨.num 1, .num 1⟩)

/-- Integer read-back of a (finite, integral) tile-range bound, used to
drive the enumeration loops once the range passed the finiteness check. -/
def jsToInt : JsNum → ℤ
  | .num q => ⌊q⌋
  | _ => 0

/-- The ascending integer list `lo, lo+1, ..., hi` (a JS `for` loop). -/
def intRange (lo hi : ℤ) : List ℤ :=
  (List.range (hi + 1 - lo).toNat).map (fun k => lo + (k : ℤ))

/-- Squared distance between tile coordinates and the range's center, the
sort key of the creation queue (`a.distanceTo(tileCenter)` is monotone in
it, so ordering by it matches the JS comparator). -/
def sqDist (cx cy : ℚ) (c : Coords) : ℚ :=
  ((c.1 : ℚ) - cx) ^ 2 + ((c.2.1 : ℚ) - cy) ^ 2

/-- Result of one `_update` pass. -/
inductive UpdateResult where
  /-- `this._tileZoom === undefined`: return with no work. -/
  | noop : UpdateResult
  /-- `Math.abs(zoom - tileZoom) > 1`: defer to a full `_setView`. -/
  | viewReset : List Tile → UpdateResult
  /-- Normal completion: the new tile map and the creation queue. -/
  | updated : List Tile → List Coords → UpdateResult
deriving DecidableEq

/-- `GridLayer._update` (src/unnamed/part_002), with the map-dependent
pieces passed as parameters: `pixelBounds` is `_getTiledPixelBounds(center)`,
`zoom` is `_clampZoom(map.getZoom())`, `tileZoom` is `this._tileZoom`
(`none` when undefined), `margin` is `options.keepBuffer`, and `isValid`
abstracts `_isValidTile` (which reads only CRS/options state).  The JS
mutation of `this._tiles` becomes state passing; tile creation appends
records with `current = true` (as `_addTile` does) in queue order. -/
def update (ts : List Tile) (tileZoom : Option ℤ) (zoom : ℚ)
    (pixelBounds : BJ) (tileSize : PtJ) (margin : ℚ)
    (isValid : Coords → Bool) : Except String UpdateResult :=
  match tileZoom with
  | none => .ok .noop
  | some tz =>
    let tileRange := pxBoundsToTileRangeJ pixelBounds tileSize
    let noPruneRange := mkBoundsJ
      (tileRange.bottomLeft.sub ⟨.num margin, .num (-margin)⟩)
      (tileRange.topRight.add ⟨.num margin, .num (-margin)⟩)
    if ¬(tileRange.min.x.isFiniteJ = true ∧ tileRange.min.y.isFiniteJ = true ∧
        tileRange.max.x.isFiniteJ = true ∧ tileRange.max.y.isFiniteJ = true) then
      .error "Attempted to load an infinite number of tiles"
    else
      let ts1 := ts.map (fun t =>
        if t.z ≠ tz ∨ ¬(noPruneRange.containsPt ⟨.num (t.x : ℚ), .num (t.y : ℚ)⟩ = true)
        then {t with current := false} else t)
      if |zoom - (tz : ℚ)| > 1 then .ok (.viewReset ts1)
      else
        let x0 := jsToInt tileRange.min.x
        let x1 := jsToInt tileRange.max.x
        let y0 := jsToInt tileRange.min.y
        let y1 := jsToInt tileRange.max.y
        let step := fun (acc : List Tile × List Coords) (c : Coords) =>
          if ¬(isValid c = true) then acc
          else match getTile acc.1 c.1 c.2.1 c.2.2 with
            | some _ => (acc.1.map (fun t =>
                if t.x = c.1 ∧ t.y = c.2.1 ∧ t.z = c.2.2
                then {t with current := true} else t), acc.2)
            | none => (acc.1, acc.2 ++ [c])
        let cells := (intRange y0 y1).flatMap
          (fun j => (intRange x0 x1).map (fun i => ((i, j, tz) : Coords)))
        let scanned := cells.foldl step (ts1, [])
        let cx := (((x0 : ℚ) + (x1 : ℚ)) / 2)
        let cy := (((y0 : ℚ) + (y1 : ℚ)) / 2)
        let queue := scanned.2.mergeSort
          (fun a b => sqDist cx cy a ≤ sqDist cx cy b)
        let ts2 := scanned.1 ++ queue.map
          (fun c => ⟨c.1, c.2.1, c.2.2, true, false, false, false⟩)
        .ok (.updated ts2 queue)


/-- C2: whenever the tile range computed from the viewport pixel bounds
has any non-finite bound, `_update` raises the
'Attempted to load an infinite number of tiles' error; in the source this
throw sits before the not-current marking loop, before any enqueue or
tile creation, and before any mutation of `this._tiles`, so the pass
terminates with the tile state exactly as it began. -/
theorem update_infinite_range_error (ts : List Tile) (tz : ℤ) (zoom : ℚ)
    (pixelBounds : BJ) (tileSize : PtJ) (margin : ℚ) (isValid : Coords → Bool)
    (h : ¬((pxBoundsToTileRangeJ pixelBounds tileSize).min.x.isFiniteJ = true ∧
        (pxBoundsToTileRangeJ pixelBounds tileSize).min.y.isFiniteJ = true ∧
        (pxBoundsToTileRangeJ pixelBounds tileSize).max.x.isFiniteJ = true ∧
        (pxBoundsToTileRangeJ pixelBounds tileSize).max.y.isFiniteJ = true)) :
    update ts (some tz) zoom pixelBounds tileSize margin isValid =
      .error "Attempted to load an infinite number of tiles" := by
  unfold update
  dsimp only
  rw [if_pos h]

/-- C2 witness: a pixel-bounds corner at +Infinity (as produced by a
corrupted zoom scaling) makes the computed tile range non-finite, and the
pass errors out. -/
theorem update_infinite_range_error_witness :
    (¬((pxBoundsToTileRangeJ ⟨⟨.num 0, .num 0⟩, ⟨.posInf, .num 256⟩⟩
          ⟨.num 256, .num 256⟩).min.x.isFiniteJ = true ∧
        (pxBoundsToTileRangeJ ⟨⟨.num 0, .num 0⟩, ⟨.posInf, .num 256⟩⟩
          ⟨.num 256, .num 256⟩).min.y.isFiniteJ = true ∧
        (pxBoundsToTileRangeJ ⟨⟨.num 0, .num 0⟩, ⟨.posInf, .num 256⟩⟩
          ⟨.num 256, .num 256⟩).max.x.isFiniteJ = true ∧
        (pxBoundsToTileRangeJ ⟨⟨.num 0, .num 0⟩, ⟨.posInf, .num 256⟩⟩
          ⟨.num 256, .num 256⟩).max.y.isFiniteJ = true)) ∧
    update [] (some 3) 3 ⟨⟨.num 0, .num 0⟩, ⟨.posInf, .num 256⟩⟩
        ⟨.num 256, .num 256⟩ 2 (fun _ => true) =
      .error "Attempted to load an infinite number of tiles" :=
  ⟨by decide, update_infinite_range_error [] 3 3 _ _ 2 _ (by decide)⟩


end Atlas
